import Mathlib

/-!
Verification of the OM diffuse-emission reduction pipeline
(`omdataprep`: `running_omichain.py`, `jupiter_corrector.py`,
`mosaic_combiner.py`, `create_new_mosaic.py`, `SExtractor.py`).

The Python code is shallowly embedded: directory listings become lists of
names, FITS images become lists of rows of rationals (with an explicit
not-a-number constructor where NaN semantics matter), external tool runs and
file modifications become events in a trace, and exceptions become explicit
`raised` flags or `Except` results.  Filenames are plain strings and the
shell-glob / `str.split` / regex-search idioms of the source are embedded as
executable functions on character lists.
-/

namespace PipeStr

/-- Shell-glob matching as used by Python's `glob.glob` for the patterns in
this repository: literal characters plus `*` (matching any, possibly empty,
character sequence).  The patterns in the source contain no `?` or ranges.
Recursion is driven by a fuel argument so that the function reduces inside
the kernel; every recursive call shrinks `p.length + s.length`, so the fuel
supplied by `globMatch` below is always sufficient. -/
def globMatchAux : Nat → List Char → List Char → Bool
  | 0, _, _ => false
  | _ + 1, [], s => s.isEmpty
  | fuel + 1, c :: ps, [] => c == '*' && globMatchAux fuel ps []
  | fuel + 1, c :: ps, d :: s =>
    if c == '*' then globMatchAux fuel ps (d :: s) || globMatchAux fuel (c :: ps) s
    else c == d && globMatchAux fuel ps s

/-- Glob matching of a pattern against a character sequence. -/
def globMatch (p s : List Char) : Bool :=
  globMatchAux (p.length + s.length + 1) p s

/-- Glob matching on strings (directory entries are compared by basename). -/
def globMatchStr (pat s : String) : Bool :=
  globMatch pat.toList s.toList

/-- Whether `sub` occurs contiguously inside `l`. -/
def infixOfChars (sub : List Char) : List Char → Bool
  | [] => sub.isEmpty
  | c :: cs => sub.isPrefixOf (c :: cs) || infixOfChars sub cs

/-- Python substring test `sub in s`. -/
def strContains (s sub : String) : Bool :=
  infixOfChars sub.toList s.toList

/-- The characters of `s` strictly before the first occurrence of the
(nonempty) separator `sep`; the whole of `s` when `sep` does not occur.
This is Python's `s.split(sep)[0]`. -/
def takeBefore (sep : List Char) : List Char → List Char
  | [] => []
  | c :: cs => if sep.isPrefixOf (c :: cs) then [] else c :: takeBefore sep cs

/-- `s.split(sep)[0]` for a nonempty separator. -/
def prefixBefore (sep s : String) : String :=
  String.mk (takeBefore sep.toList s.toList)

/-- Insertion into an ascending list of strings (Python's sort order on the
strings appearing here coincides with code-point lexicographic order). -/
def insertStr (x : String) : List String → List String
  | [] => [x]
  | y :: ys => if y < x then y :: insertStr x ys else x :: y :: ys

/-- `sorted(...)` on a list of strings. -/
def sortStrs : List String → List String
  | [] => []
  | x :: xs => insertStr x (sortStrs xs)

/-- Duplicate removal keeping first occurrences (the order is irrelevant to
the source, which always sorts afterwards; this models `set(...)`). -/
def dedupStrs : List String → List String
  | [] => []
  | x :: xs => if xs.contains x then dedupStrs xs else x :: dedupStrs xs

/-- Maximal leading run of decimal digits, as matched by a regex `\d+`. -/
def takeDigits : List Char → List Char
  | [] => []
  | c :: cs => if c.isDigit then c :: takeDigits cs else []

/-- Python's `str.strip()` on the ASCII header values handled here. -/
def pyStrip (s : String) : String :=
  String.mk (((s.toList.dropWhile Char.isWhitespace).reverse.dropWhile
    Char.isWhitespace).reverse)

/-- Python's `str.upper()` on the ASCII header values handled here. -/
def pyUpper (s : String) : String :=
  String.mk (s.toList.map Char.toUpper)

end PipeStr

namespace PyDict

/-- Insertion-ordered dictionary over string keys and values, as built by a
Python dict comprehension: inserting an existing key overwrites its value in
place, a fresh key is appended. -/
def dictInsert (d : List (String × String)) (k v : String) :
    List (String × String) :=
  if d.any (fun kv => kv.1 == k) then
    d.map (fun kv => if kv.1 == k then (k, v) else kv)
  else d ++ [(k, v)]

/-- Dictionary built from a list of key/value pairs (later pairs win). -/
def buildDict (l : List (String × String)) : List (String × String) :=
  l.foldl (fun d kv => dictInsert d kv.1 kv.2) []

/-- `d.get(k)` / `d[k]`. -/
def dictGet (d : List (String × String)) (k : String) : Option String :=
  (d.find? (fun kv => kv.1 == k)).map Prod.snd

/-- `d.keys()`. -/
def dictKeys (d : List (String × String)) : List String :=
  d.map Prod.fst

end PyDict

/-! ## Band Combiner — `mosaic_combiner.py`, class `UVImageCombiner` -/

namespace Combiner

open PipeStr PyDict

/-- Glob pattern of the mosaic-mode output set (`get_matching_pairs`). -/
def patMosaic : String := "P*_UVW1_jupiter_filtred_MOSAIC.FIT"

/-- Glob pattern of the hybrid-mode output set (`get_matching_pairs`). -/
def patHybrid : String := "P*RSIMAGM*.FIT"

/-- Key of a mosaic-set file: `os.path.basename(f).split('_')[0]`. -/
def keyUnderscore (f : String) : String := prefixBefore "_" f

/-- Key of a hybrid-set file: `os.path.basename(f).split('OMS')[0]`. -/
def keyOMS (f : String) : String := prefixBefore "OMS" f

/-- `UVImageCombiner.get_matching_pairs` over the basenames found in the
directory: filter both globs, key each set, intersect the key sets, and emit
the pairs in sorted key order. -/
def get_matching_pairs (files : List String) : List (String × String) :=
  let uvm2_files := files.filter (fun f => globMatchStr patMosaic f)
  let uvw1_files := files.filter (fun f => globMatchStr patHybrid f)
  let uvm2_dict := buildDict (uvm2_files.map (fun f => (keyUnderscore f, f)))
  let uvw1_dict := buildDict (uvw1_files.map (fun f => (keyOMS f, f)))
  let common := (dictKeys uvm2_dict).filter (fun k => (dictGet uvw1_dict k).isSome)
  (sortStrs common).filterMap (fun k =>
    match dictGet uvm2_dict k, dictGet uvw1_dict k with
    | some a, some b => some (a, b)
    | _, _ => none)

/-- The three-file directory of the pairing claim. -/
def demoFiles : List String :=
  ["P1_UVW1_jupiter_filtred_MOSAIC.FIT", "P1RSIMAGM0.FIT", "P2RSIMAGM0.FIT"]

end Combiner

/-! ## Reduction Driver — `running_omichain.py`, class `RunOmichain` -/

namespace Driver

/-- One frame discovered for stray-light correction (`files_to_correct`):
its basename, whether `fits.open` and the header read succeed, and the value
of `hdul[0].header.get("FILTER", "")`. -/
structure Frame where
  name : String
  readOk : Bool
  headerFilter : String
  deriving DecidableEq

/-- External invocations and file modifications performed for one
observation.  Operator log lines (`log_message`) are not modelled: they touch
only the batch-level text log, never observation data. -/
inductive Ev where
  | mkdirWork
  | copyInitsas
  | unpackTar
  | updateInitsas
  | runInitsas
  | sasver
  | omichain
  | jupiterInvoke (fr : Frame)
  | omattBatch
  | wcsSync
  | buildMosaic
  | combineBands
  | sextractor
  | maskApply
  | removeOdfCall
  | removeTarCall
  deriving DecidableEq

/-- Appends to the driver's result lists performed inside the per-observation
`try` block (`processed_observations.append` / `error_observations.append`). -/
inductive Mark where
  | processedM
  | erroredM
  deriving DecidableEq

/-- Outcome of the per-observation `try` block (lines 127-240): the events it
performed, the result-list appends it made, and whether it ended by raising
an exception into the driver's `except` clause. -/
structure BodyResult where
  events : List Ev
  marks : List Mark
  raised : Bool
  deriving DecidableEq

/-- Per-observation environment: which fallible steps of the `try` block
succeed, whether a `.SAS` descriptor is found, whether the two external
reduction tasks succeed, and the frames discovered for correction. -/
structure ObsEnv where
  copyOk : Bool
  unpackOk : Bool
  updateOk : Bool
  initScriptOk : Bool
  sasFound : Bool
  sasverOk : Bool
  omichainOk : Bool
  frames : List Frame
  deriving DecidableEq

/-- `RunOmichain.run_commands_in_directory`: runs `sasver` then `omichain`
inside a `try` that catches any failure and returns `False`; the working
directory change and restoration are confined to this block.  Returns the
invocation events together with the boolean result. -/
def run_commands_in_directory (e : ObsEnv) : List Ev × Bool :=
  if e.sasverOk then
    ([Ev.sasver, Ev.omichain], e.omichainOk)
  else
    ([Ev.sasver], false)

/-- The reduction step reports success precisely when both external tasks
ran without raising. -/
def reductionSucceeded (e : ObsEnv) : Bool :=
  e.sasverOk && e.omichainOk

/-- The stray-light correction loop over `files_to_correct`: each frame is
opened inside its own `try`; `Jupiter_Corrector` is invoked exactly for the
frames whose primary header `FILTER` equals `"UVW1"`. -/
def jupiterEvents (frames : List Frame) : List Ev :=
  frames.filterMap (fun fr =>
    if fr.readOk && fr.headerFilter == "UVW1" then some (Ev.jupiterInvoke fr)
    else none)

/-- The fixed tail of the `if sas_files:` branch: the post-processing calls
(lines 182-230), each wrapped in its own `try`/`except`, followed by
`remove_odf_directory` (line 236). -/
def postEvents : List Ev :=
  [Ev.omattBatch, Ev.wcsSync, Ev.buildMosaic, Ev.combineBands,
   Ev.sextractor, Ev.maskApply, Ev.removeOdfCall]

/-- The per-observation `try` block of `RunOmichain.run` (lines 127-240):
copy `initsas.sh`, unpack archives, rewrite the script, source it, look for a
`.SAS` descriptor; with a descriptor, run the reduction (`sasver` +
`omichain`), append to `processed` or `errored` accordingly, correct UVW1
frames only on success, and in either case run the post-processing calls;
without a descriptor, append to `errored`.  An exception in one of the four
initialisation steps propagates (`raised := true`). -/
def tryBody (e : ObsEnv) : BodyResult :=
  if ¬ e.copyOk then ⟨[], [], true⟩
  else if ¬ e.unpackOk then ⟨[Ev.copyInitsas], [], true⟩
  else if ¬ e.updateOk then ⟨[Ev.copyInitsas, Ev.unpackTar], [], true⟩
  else if ¬ e.initScriptOk then
    ⟨[Ev.copyInitsas, Ev.unpackTar, Ev.updateInitsas], [], true⟩
  else
    let initEvs := [Ev.copyInitsas, Ev.unpackTar, Ev.updateInitsas, Ev.runInitsas]
    if e.sasFound then
      let red := run_commands_in_directory e
      if red.2 then
        ⟨initEvs ++ red.1 ++ jupiterEvents e.frames ++ postEvents,
         [Mark.processedM], false⟩
      else
        ⟨initEvs ++ red.1 ++ postEvents, [Mark.erroredM], false⟩
    else
      ⟨initEvs ++ [Ev.removeOdfCall], [Mark.erroredM], false⟩

/-- One entry of the batch root: its name, whether it is a directory, whether
it already holds a `work` subdirectory, and what its `try` block does when
entered. -/
structure Folder where
  name : String
  isDir : Bool
  hasWork : Bool
  body : BodyResult
  deriving DecidableEq

/-- The driver's accumulated result lists and event trace (events are tagged
with the observation they belong to). -/
structure RunState where
  processed : List String
  errored : List String
  already : List String
  events : List (String × Ev)
  deriving DecidableEq

/-- Driver configuration relevant to the loop tail (`remove_tar`). -/
structure Config where
  removeTar : Bool
  deriving DecidableEq

/-- One iteration of the `for folder_name in os.listdir(...)` loop of
`RunOmichain.run`: skip non-directories; record directories that already have
`work` as already-processed and `continue`; otherwise create `work`, run the
`try` block, append the observation to `errored` if it raised, and finally
run the `remove_tar` tail. -/
def stepFolder (cfg : Config) (st : RunState) (f : Folder) : RunState :=
  if f.isDir then
    if f.hasWork then { st with already := st.already ++ [f.name] }
    else
      let st1 : RunState := { st with events := st.events ++ [(f.name, Ev.mkdirWork)] }
      let st2 : RunState :=
        { st1 with
          processed := st1.processed ++
            (if Mark.processedM ∈ f.body.marks then [f.name] else []),
          errored := st1.errored ++
            (if Mark.erroredM ∈ f.body.marks then [f.name] else []),
          events := st1.events ++ f.body.events.map (fun e => (f.name, e)) }
      let st3 : RunState :=
        if f.body.raised then { st2 with errored := st2.errored ++ [f.name] } else st2
      if cfg.removeTar then
        { st3 with events := st3.events ++ [(f.name, Ev.removeTarCall)] }
      else st3
  else st

/-- `RunOmichain.run` from a starting state. -/
def runLoopFrom (cfg : Config) (st : RunState) (obs : List Folder) : RunState :=
  obs.foldl (stepFolder cfg) st

/-- `RunOmichain.run`: the batch loop from the empty result state. -/
def runLoop (cfg : Config) (obs : List Folder) : RunState :=
  runLoopFrom cfg ⟨[], [], [], []⟩ obs

/-- Names a folder contributes to `processed_observations`. -/
def procOf (f : Folder) : List String :=
  if f.isDir then
    if f.hasWork then []
    else if Mark.processedM ∈ f.body.marks then [f.name] else []
  else []

/-- Names a folder contributes to `error_observations`. -/
def errOf (f : Folder) : List String :=
  if f.isDir then
    if f.hasWork then []
    else
      (if Mark.erroredM ∈ f.body.marks then [f.name] else []) ++
        (if f.body.raised then [f.name] else [])
  else []

/-- Names a folder contributes to `already_processed`. -/
def alreadyOf (f : Folder) : List String :=
  if f.isDir then if f.hasWork then [f.name] else [] else []

/-- Events a folder contributes to the trace. -/
def eventsOf (cfg : Config) (f : Folder) : List (String × Ev) :=
  if f.isDir then
    if f.hasWork then []
    else
      ((f.name, Ev.mkdirWork) :: f.body.events.map (fun e => (f.name, e))) ++
        (if cfg.removeTar then [(f.name, Ev.removeTarCall)] else [])
  else []

/-- Concatenated per-folder contributions. -/
def collect {β : Type} (g : Folder → List β) : List Folder → List β
  | [] => []
  | f :: r => g f ++ collect g r

/-- A fully successful initialisation whose reduction step fails at
`omichain`, with one UVW1 frame available: the concrete observation
environment used to test the post-processing gating. -/
def failEnv : ObsEnv :=
  { copyOk := true, unpackOk := true, updateOk := true, initScriptOk := true,
    sasFound := true, sasverOk := true, omichainOk := false,
    frames := [{ name := "P0001OMS001FIMAG_0000.FIT", readOk := true,
                 headerFilter := "UVW1" }] }

/-- A concrete UVW1 frame used as test input. -/
def uvw1Frame : Frame :=
  { name := "P0001OMS001FIMAG_0000.FIT", readOk := true, headerFilter := "UVW1" }

/-- A fully successful observation environment with one UVW1 frame. -/
def okEnv : ObsEnv :=
  { copyOk := true, unpackOk := true, updateOk := true, initScriptOk := true,
    sasFound := true, sasverOk := true, omichainOk := true,
    frames := [uvw1Frame] }

/-- A concrete observation whose try block raises. -/
def failFolder : Folder :=
  { name := "0722700101", isDir := true, hasWork := false,
    body := ⟨[Ev.copyInitsas], [], true⟩ }

/-- A concrete observation that already holds a `work` directory. -/
def doneFolder : Folder :=
  { name := "0722700102", isDir := true, hasWork := true,
    body := ⟨[], [], false⟩ }

end Driver

/-! ## Two-dimensional arrays as lists of rows -/

namespace Grid

/-- Entry of a list-of-rows array at row `i`, column `j`. -/
def cell {α : Type} (xss : List (List α)) (i j : Nat) : Option α :=
  (xss[i]?).bind (fun row => row[j]?)

/-- Elementwise combination of two arrays (numpy broadcasting never occurs in
this code: operands always share a shape, and `zipWith` agrees with numpy on
equal shapes). -/
def map2 {α β γ : Type} (f : α → β → γ) (xss : List (List α))
    (yss : List (List β)) : List (List γ) :=
  List.zipWith (fun r s => List.zipWith f r s) xss yss

/-- The list of row lengths; two rectangular arrays have the same numpy shape
exactly when these agree. -/
def rowDims {α : Type} (xss : List (List α)) : List Nat :=
  xss.map List.length

end Grid

/-! ## Stray-Light Corrector — `jupiter_corrector.py`, class `Jupiter_Corrector`

Pixel values are modelled as rationals; the `astype("float32")` cast is an
uninterpreted function `cast` applied to every pixel of the quotient. -/

namespace Jupiter

/-- A primary image plane. -/
abbrev Image := List (List ℚ)

/-- numpy's `data.shape` for the rectangular arrays handled here. -/
def shape (img : Image) : Nat × Nat :=
  (img.length, (img.headD []).length)

/-- The model dictionary built by `_load_models`: keys are
(filter, pixel-dimensions), values the model planes; keys are unique. -/
abbrev Models := List ((String × (Nat × Nat)) × Image)

/-- `Jupiter_Corrector._find_best_model`: exact dictionary lookup on
(filter, image shape) — `self.models.get((self.filtro, image_shape), None)`,
with no resampling and no nearest-size fallback. -/
def find_best_model (models : Models) (filtro : String) (sh : Nat × Nat) :
    Option Image :=
  (models.find? (fun kv => kv.1 == (filtro, sh))).map Prod.snd

/-- `os.path.splitext`: split at the final dot, here specialised to the FITS
names handled by the corrector (every input name carries an extension). -/
def splitExtChars (l : List Char) : List Char × List Char :=
  match l.reverse.findIdx? (fun c => c == '.') with
  | none => (l, [])
  | some k => (l.take (l.length - 1 - k), l.drop (l.length - 1 - k))

/-- The default output path: the input path with `_jpiter_filtred` inserted
before the extension. -/
def default_output_path (image_path : String) : String :=
  let be := splitExtChars image_path.toList
  String.mk be.1 ++ "_jpiter_filtred" ++ String.mk be.2

/-- `Jupiter_Corrector.correct_image`: look up the model for
(filter, shape); with no model, raise `ValueError` before anything is
written; otherwise divide elementwise, cast each pixel, and write the result
to the output path (header stamping updates metadata only and is not
modelled).  The `Except` value carries the single written file. -/
def correct_image (cast : ℚ → ℚ) (models : Models) (filtro : String)
    (image_path : String) (image : Image) : Except String (String × Image) :=
  match find_best_model models filtro (shape image) with
  | none =>
    Except.error ("Nenhum modelo adequado encontrado para a imagem com filtro " ++ filtro)
  | some model =>
    Except.ok (default_output_path image_path,
      Grid.map2 (fun a b => cast (a / b)) image model)

/-- The files written by a corrector invocation. -/
def writesOf (r : Except String (String × Image)) : List String :=
  match r with
  | Except.ok pr => [pr.1]
  | Except.error _ => []

/-- A concrete 10x10 calibration model plane (all pixels 2). -/
def modelTen : Image := List.replicate 10 (List.replicate 10 (2 : ℚ))

/-- A concrete 10x10 raw image plane (all pixels 6). -/
def imageTen : Image := List.replicate 10 (List.replicate 10 (6 : ℚ))

end Jupiter

/-! ## Band-combiner arithmetic — `mosaic_combiner.py` (`combine_two_images`)

Pixel values are rationals extended with an explicit not-a-number element so
that `np.nan_to_num` is meaningful; finite float addition is modelled as
exact addition. -/

namespace Combiner

/-- A float pixel: not-a-number or a finite value. -/
inductive Px where
  | nan
  | val (q : ℚ)
  deriving DecidableEq

/-- `np.nan_to_num` on one pixel: not-a-number becomes zero, finite values
are unchanged. -/
def nan_to_num : Px → ℚ
  | Px.nan => 0
  | Px.val q => q

/-- A FITS file as read by the combiner: primary plane and its header. -/
structure FitsImage where
  data : List (List Px)
  header : List (String × String)
  deriving DecidableEq

/-- `UVImageCombiner.combine_two_images`: replace not-a-number pixels by zero
in each input independently, sum elementwise, and keep the first file's
header. -/
def combine_two_images (f1 f2 : FitsImage) :
    List (List ℚ) × List (String × String) :=
  (Grid.map2 (fun a b => nan_to_num a + nan_to_num b) f1.data f2.data,
   f1.header)

end Combiner

/-! ## Segmentation masking — `SExtractor.py` (`apply_segmentation_mask`) -/

namespace Mask

/-- A FITS file as read by the masking pass: the selected image plane and
its header. -/
structure QFits where
  data : List (List ℚ)
  header : List (String × String)
  deriving DecidableEq

/-- The pixel update `data_mascarada[data_seg > 0] = 0` applied to a copy of
the original plane. -/
def mask_pixels (img seg : List (List ℚ)) : List (List ℚ) :=
  Grid.map2 (fun a s => if 0 < s then 0 else a) img seg

/-- One image/segmentation-map pair of `apply_segmentation_mask`: a shape
mismatch is a skip (`none`); otherwise the masked copy is written with the
original image's header. -/
def maskPair (img seg : QFits) : Option QFits :=
  if Grid.rowDims img.data = Grid.rowDims seg.data then
    some { data := mask_pixels img.data seg.data, header := img.header }
  else none

/-- A concrete masked-pass original image. -/
def demoImg : QFits :=
  { data := [[7, 9], [4, 5]], header := [("FILTER", "UVW1")] }

/-- A concrete segmentation map for `demoImg` (one detected source). -/
def demoSeg : QFits :=
  { data := [[0, 2], [-1, 0]], header := [] }

/-- The masked output for `demoImg`/`demoSeg`. -/
def demoOut : QFits :=
  { data := [[7, 0], [4, 5]], header := [("FILTER", "UVW1")] }

end Mask

/-! ## Mosaic Builder — `create_new_mosaic.py`, class `Build_Mosaic` -/

namespace Mosaic

open PipeStr

/-- A directory entry as seen by the mosaic builder: its basename, the
`FILTER` values carried by its HDU headers (in HDU order, only the HDUs that
have the keyword), and whether `fits.open` succeeds on it. -/
structure MFile where
  name : String
  headerFilters : List String
  readOk : Bool
  deriving DecidableEq

/-- `Build_Mosaic.get_filter_from_header`: the first HDU `FILTER` value,
stripped and upper-cased; `"UNKNOWN"` when the keyword is absent everywhere
or the file cannot be read. -/
def get_filter_from_header (f : MFile) : String :=
  if f.readOk then
    match f.headerFilters.head? with
    | some v => PipeStr.pyUpper (PipeStr.pyStrip v)
    | none => "UNKNOWN"
  else "UNKNOWN"

/-- `Build_Mosaic.get_exposure_id`: the leftmost regex match of `OMS\d+`
(literal `OMS` followed by a maximal nonempty digit run), or `None`. -/
def findOMSId : List Char → Option String
  | [] => none
  | c :: cs =>
    if List.isPrefixOf "OMS".toList (c :: cs) then
      let ds := takeDigits ((c :: cs).drop 3)
      if ds.isEmpty then findOMSId cs
      else some (String.mk ("OMS".toList ++ ds))
    else findOMSId cs

/-- `get_exposure_id` on a basename. -/
def get_exposure_id (name : String) : Option String :=
  findOMSId name.toList

/-- `Build_Mosaic.get_obsid`: regex match of `P\d+` anchored at the start of
the first basename, else `"UNKNOWN_OBSID"`. -/
def get_obsid (filenames : List String) : String :=
  match filenames with
  | [] => "UNKNOWN_OBSID"
  | f :: _ =>
    match f.toList with
    | [] => "UNKNOWN_OBSID"
    | c :: rest =>
      if c == 'P' then
        let ds := takeDigits rest
        if ds.isEmpty then "UNKNOWN_OBSID" else String.mk (c :: ds)
      else "UNKNOWN_OBSID"

/-- Insertion into a name-sorted file list. -/
def insertFile (x : MFile) : List MFile → List MFile
  | [] => [x]
  | y :: ys => if y.name < x.name then y :: insertFile x ys else x :: y :: ys

/-- Python's `list.sort()` on basenames (entries from one directory listing
have pairwise distinct names, so stability is immaterial). -/
def sortFilesByName : List MFile → List MFile
  | [] => []
  | x :: xs => insertFile x (sortFilesByName xs)

/-- `Build_Mosaic.find_images_for_hybrid_mosaic`: pick the lexicographically
first corrected-and-rotated mosaic component whose header filter matches,
then add every distinct-exposure `SIMAGE1000` companion with the same header
filter, deduplicate, and sort. -/
def find_images_for_hybrid_mosaic (files : List MFile) (filter_name : String) :
    List String :=
  let jupiter_corrected_files := files.filter (fun f =>
    strContains f.name "jpiter_filtred" && strContains f.name "rotated_WCS" &&
      strContains f.name "IMAGE_1000")
  if jupiter_corrected_files.isEmpty then []
  else
    match (sortFilesByName jupiter_corrected_files).find?
        (fun f => get_filter_from_header f == filter_name) with
    | none => []
    | some jf =>
      let corrected_exposure_id := get_exposure_id jf.name
      let simage_candidates := files.filter (fun f => strContains f.name "SIMAGE1000")
      let companions := simage_candidates.filter (fun f =>
        get_exposure_id f.name != corrected_exposure_id &&
          get_filter_from_header f == filter_name)
      sortStrs (dedupStrs (jf.name :: companions.map (fun f => f.name)))

/-- Actions of `create_new_mosaic` on shared process state: working-directory
changes and `ommosaic` invocations (tagged with the mode that issued them),
plus the hybrid mode's per-filter candidate search. -/
inductive MEv where
  | chdir (d : String)
  | ommosaicStacked (imagesets : List String) (out : String)
  | hybridSearch (filt : String)
  | ommosaicHybrid (imagesets : List String) (out : String)
  deriving DecidableEq

/-- The stacked-frame-mode candidate pattern (`fsimag_files` glob). -/
def fsimagPat : String := "P*FIMAG*jpiter_filtred_rotated_WCS.FIT"

/-- Ordered-dictionary insertion used by `images_by_filter.setdefault`. -/
def groupInsert (groups : List (String × List String)) (k v : String) :
    List (String × List String) :=
  if groups.any (fun g => g.1 == k) then
    groups.map (fun g => if g.1 == k then (g.1, g.2 ++ [v]) else g)
  else groups ++ [(k, [v])]

/-- Grouping of the stacked-frame candidates by header filter, skipping
files whose filter is `"UNKNOWN"`. -/
def images_by_filter (fsimag_files : List MFile) : List (String × List String) :=
  fsimag_files.foldl (fun gs f =>
    let filt := get_filter_from_header f
    if filt != "UNKNOWN" then groupInsert gs filt f.name else gs) []

/-- The stacked-mode `for` loop body events: one `ommosaic` invocation per
filter group; the surrounding single `try` means the first failing
invocation (outcome `false`) aborts the remaining groups. -/
def stackedInvs (groups : List (String × List String)) (outcomes : Nat → Bool)
    (k : Nat) : List MEv :=
  match groups with
  | [] => []
  | (filt, imgs) :: rest =>
    if imgs.length < 1 then stackedInvs rest outcomes k
    else
      let out := get_obsid imgs ++ "_" ++ filt ++ "_jupiter_filtred_MOSAIC.FIT"
      let ev := MEv.ommosaicStacked imgs out
      if outcomes k then ev :: stackedInvs rest outcomes (k + 1) else [ev]

/-- The hybrid-mode loop over the fixed filter priority list: each filter is
searched, and when candidates exist the `ommosaic` invocation is bracketed by
its own `chdir`/restore (`try`/`finally`); a failing invocation is caught, so
the loop always continues. -/
def hybridLoop (dirp cwd0 : String) (files : List MFile) :
    List String → List MEv
  | [] => []
  | filt :: rest =>
    let image_files := find_images_for_hybrid_mosaic files filt
    MEv.hybridSearch filt ::
      (if image_files.isEmpty then hybridLoop dirp cwd0 files rest
       else
         let out := get_obsid image_files ++ "_" ++ filt ++ "_jupiter_filtred_MOSAIC.FIT"
         MEv.chdir dirp :: MEv.ommosaicHybrid image_files out ::
           MEv.chdir cwd0 :: hybridLoop dirp cwd0 files rest)

/-- The fixed hybrid filter priority list. -/
def hybridFilters : List String := ["UVW1", "UVM2", "UVL", "U", "B", "V", "WHITE"]

/-- `Build_Mosaic.create_new_mosaic` over the directory listing `files`, with
`dirp` the observation's work directory, `cwd0` the working directory on
entry and `outcomes k` the success of the `k`-th external `ommosaic` run:
stacked-frame mode whenever any corrected FSIMAG file exists (one `chdir` in,
the grouped invocations, one restoring `chdir` from the `finally`), hybrid
mode otherwise. -/
def create_new_mosaic (dirp cwd0 : String) (files : List MFile)
    (outcomes : Nat → Bool) : List MEv :=
  let fsimag_files := files.filter (fun f => globMatchStr fsimagPat f.name)
  if fsimag_files.isEmpty then hybridLoop dirp cwd0 files hybridFilters
  else
    let groups := images_by_filter fsimag_files
    if groups.isEmpty then []
    else MEv.chdir dirp :: stackedInvs groups outcomes 0 ++ [MEv.chdir cwd0]

/-- Effect of one event on the process working directory. -/
def stepCwd (cur : String) (e : MEv) : String :=
  match e with
  | MEv.chdir d => d
  | _ => cur

/-- The working directory after a trace of events, starting from `c`. -/
def cwdAfter (c : String) (evs : List MEv) : String :=
  evs.foldl stepCwd c

/-- Events that invoke the external mosaic task. -/
def isMosaicInv : MEv → Bool
  | MEv.ommosaicStacked _ _ => true
  | MEv.ommosaicHybrid _ _ => true
  | _ => false

/-- Events that belong to the hybrid-mosaic code path. -/
def isHybridPath : MEv → Bool
  | MEv.hybridSearch _ => true
  | MEv.ommosaicHybrid _ _ => true
  | _ => false

/-- Events that change the working directory. -/
def isChdir : MEv → Bool
  | MEv.chdir _ => true
  | _ => false

end Mosaic

namespace Driver

theorem stepFolder_processed (cfg : Config) (st : RunState) (f : Folder) :
    (stepFolder cfg st f).processed = st.processed ++ procOf f := by
  by_cases hd : f.isDir
  · by_cases hw : f.hasWork
    · simp [stepFolder, procOf, hd, hw]
    · by_cases hr : f.body.raised <;> by_cases ht : cfg.removeTar <;>
        simp [stepFolder, procOf, hd, hw, hr, ht]
  · simp [stepFolder, procOf, hd]

theorem stepFolder_errored (cfg : Config) (st : RunState) (f : Folder) :
    (stepFolder cfg st f).errored = st.errored ++ errOf f := by
  by_cases hd : f.isDir
  · by_cases hw : f.hasWork
    · simp [stepFolder, errOf, hd, hw]
    · by_cases hr : f.body.raised <;> by_cases ht : cfg.removeTar <;>
        simp [stepFolder, errOf, hd, hw, hr, ht]
  · simp [stepFolder, errOf, hd]

theorem stepFolder_already (cfg : Config) (st : RunState) (f : Folder) :
    (stepFolder cfg st f).already = st.already ++ alreadyOf f := by
  by_cases hd : f.isDir
  · by_cases hw : f.hasWork
    · simp [stepFolder, alreadyOf, hd, hw]
    · by_cases hr : f.body.raised <;> by_cases ht : cfg.removeTar <;>
        simp [stepFolder, alreadyOf, hd, hw, hr, ht]
  · simp [stepFolder, alreadyOf, hd]

theorem stepFolder_events (cfg : Config) (st : RunState) (f : Folder) :
    (stepFolder cfg st f).events = st.events ++ eventsOf cfg f := by
  by_cases hd : f.isDir
  · by_cases hw : f.hasWork
    · simp [stepFolder, eventsOf, hd, hw]
    · by_cases hr : f.body.raised <;> by_cases ht : cfg.removeTar <;>
        simp [stepFolder, eventsOf, hd, hw, hr, ht]
  · simp [stepFolder, eventsOf, hd]

theorem runLoopFrom_processed (cfg : Config) (obs : List Folder) :
    ∀ st : RunState,
      (runLoopFrom cfg st obs).processed = st.processed ++ collect procOf obs := by
  induction obs with
  | nil => intro st; simp [runLoopFrom, collect]
  | cons f r ih =>
    intro st
    have : runLoopFrom cfg st (f :: r) = runLoopFrom cfg (stepFolder cfg st f) r := rfl
    rw [this, ih, stepFolder_processed]
    simp [collect]

theorem runLoopFrom_errored (cfg : Config) (obs : List Folder) :
    ∀ st : RunState,
      (runLoopFrom cfg st obs).errored = st.errored ++ collect errOf obs := by
  induction obs with
  | nil => intro st; simp [runLoopFrom, collect]
  | cons f r ih =>
    intro st
    have : runLoopFrom cfg st (f :: r) = runLoopFrom cfg (stepFolder cfg st f) r := rfl
    rw [this, ih, stepFolder_errored]
    simp [collect]

theorem runLoopFrom_already (cfg : Config) (obs : List Folder) :
    ∀ st : RunState,
      (runLoopFrom cfg st obs).already = st.already ++ collect alreadyOf obs := by
  induction obs with
  | nil => intro st; simp [runLoopFrom, collect]
  | cons f r ih =>
    intro st
    have : runLoopFrom cfg st (f :: r) = runLoopFrom cfg (stepFolder cfg st f) r := rfl
    rw [this, ih, stepFolder_already]
    simp [collect]

theorem runLoopFrom_events (cfg : Config) (obs : List Folder) :
    ∀ st : RunState,
      (runLoopFrom cfg st obs).events = st.events ++ collect (eventsOf cfg) obs := by
  induction obs with
  | nil => intro st; simp [runLoopFrom, collect]
  | cons f r ih =>
    intro st
    have : runLoopFrom cfg st (f :: r) = runLoopFrom cfg (stepFolder cfg st f) r := rfl
    rw [this, ih, stepFolder_events]
    simp [collect]

theorem mem_collect {β : Type} (g : Folder → List β) (x : β) :
    ∀ obs : List Folder, x ∈ collect g obs ↔ ∃ f ∈ obs, x ∈ g f := by
  intro obs
  induction obs with
  | nil => simp [collect]
  | cons f r ih => simp [collect, ih]

theorem collect_eq_nil {β : Type} (g : Folder → List β) (obs : List Folder)
    (h : ∀ f ∈ obs, g f = []) : collect g obs = [] := by
  induction obs with
  | nil => rfl
  | cons f r ih =>
    simp only [collect, h f (by simp), List.nil_append]
    exact ih (fun x hx => h x (by simp [hx]))

theorem runLoop_errored (cfg : Config) (obs : List Folder) :
    (runLoop cfg obs).errored = collect errOf obs := by
  have h := runLoopFrom_errored cfg obs ⟨[], [], [], []⟩
  simpa [runLoop] using h

theorem runLoop_processed (cfg : Config) (obs : List Folder) :
    (runLoop cfg obs).processed = collect procOf obs := by
  have h := runLoopFrom_processed cfg obs ⟨[], [], [], []⟩
  simpa [runLoop] using h

theorem runLoop_already (cfg : Config) (obs : List Folder) :
    (runLoop cfg obs).already = collect alreadyOf obs := by
  have h := runLoopFrom_already cfg obs ⟨[], [], [], []⟩
  simpa [runLoop] using h

theorem runLoop_events (cfg : Config) (obs : List Folder) :
    (runLoop cfg obs).events = collect (eventsOf cfg) obs := by
  have h := runLoopFrom_events cfg obs ⟨[], [], [], []⟩
  simpa [runLoop] using h

/-- Membership in `jupiterEvents` certifies the frame's discovery, a
successful header read, and a `FILTER` value of exactly `"UVW1"`. -/
theorem mem_jupiterEvents (frames : List Frame) (fr : Frame)
    (h : Ev.jupiterInvoke fr ∈ jupiterEvents frames) :
    fr ∈ frames ∧ fr.readOk = true ∧ fr.headerFilter = "UVW1" := by
  simp only [jupiterEvents, List.mem_filterMap] at h
  obtain ⟨a, ha, hsome⟩ := h
  by_cases hc : (a.readOk && a.headerFilter == "UVW1") = true
  · rw [if_pos hc] at hsome
    have hae : a = fr := by
      have := Option.some.inj hsome
      exact (Ev.jupiterInvoke.inj this)
    subst hae
    simp only [Bool.and_eq_true, beq_iff_eq] at hc
    exact ⟨ha, hc.1, hc.2⟩
  · rw [if_neg hc] at hsome
    exact absurd hsome (by simp)

/-- C1: if an observation directory's try block — everything after the
`work` directory has been created — raises, the driver records that
observation in the errored list, and every other observation of the batch is
still classified on its own merits, so one observation's total failure does
not prevent processing of the remaining observations; the batch loop itself
is a total function of the listing and never raises. -/
theorem C1_driver_failure_isolated (cfg : Config) (obs : List Folder)
    (f : Folder) (hf : f ∈ obs) (hdir : f.isDir = true)
    (hw : f.hasWork = false) (hr : f.body.raised = true) :
    f.name ∈ (runLoop cfg obs).errored ∧
    ∀ g ∈ obs,
      (g.isDir = true → g.hasWork = true → g.name ∈ (runLoop cfg obs).already) ∧
      (g.isDir = true → g.hasWork = false → Mark.processedM ∈ g.body.marks →
        g.name ∈ (runLoop cfg obs).processed) ∧
      (g.isDir = true → g.hasWork = false → g.body.raised = true →
        g.name ∈ (runLoop cfg obs).errored) := by
  refine ⟨?_, ?_⟩
  · rw [runLoop_errored]
    exact (mem_collect errOf f.name obs).2
      ⟨f, hf, by simp [errOf, hdir, hw, hr]⟩
  · intro g hg
    refine ⟨?_, ?_, ?_⟩
    · intro hgd hgw
      rw [runLoop_already]
      exact (mem_collect alreadyOf g.name obs).2
        ⟨g, hg, by simp [alreadyOf, hgd, hgw]⟩
    · intro hgd hgw hgm
      rw [runLoop_processed]
      exact (mem_collect procOf g.name obs).2
        ⟨g, hg, by simp [procOf, hgd, hgw, hgm]⟩
    · intro hgd hgw hgr
      rw [runLoop_errored]
      exact (mem_collect errOf g.name obs).2
        ⟨g, hg, by simp [errOf, hgd, hgw, hgr]⟩

/-- Witness for C1: a concrete two-observation batch in which the first
observation's try block raises and the second already has `work`. -/
theorem C1_driver_failure_isolated_witness :
    "0722700101" ∈ (runLoop ⟨false⟩ [failFolder, doneFolder]).errored ∧
    "0722700102" ∈ (runLoop ⟨false⟩ [failFolder, doneFolder]).already := by
  have h := C1_driver_failure_isolated ⟨false⟩ [failFolder, doneFolder]
    failFolder (by decide) rfl rfl rfl
  exact ⟨h.1, (h.2 doneFolder (by decide)).1 rfl rfl⟩

/-- C2: when every observation directory of the batch root already contains
a `work` subdirectory, a re-run classifies every directory as
already-processed, leaves the processed and errored lists empty, and
performs no external tool invocation and no file modification. -/
theorem C2_rerun_is_noop (cfg : Config) (obs : List Folder)
    (h : ∀ f ∈ obs, f.isDir = true → f.hasWork = true) :
    (runLoop cfg obs).already = (obs.filter (fun f => f.isDir)).map Folder.name ∧
    (runLoop cfg obs).processed = [] ∧
    (runLoop cfg obs).errored = [] ∧
    (runLoop cfg obs).events = [] := by
  refine ⟨?_, ?_, ?_, ?_⟩
  · rw [runLoop_already]
    induction obs with
    | nil => rfl
    | cons f r ih =>
      have hr : ∀ x ∈ r, x.isDir = true → x.hasWork = true :=
        fun x hx => h x (by simp [hx])
      by_cases hd : f.isDir = true
      · have hwk := h f (by simp) hd
        simp [collect, alreadyOf, hd, hwk, List.filter_cons, ih hr]
      · have hd' : f.isDir = false := by
          cases hfd : f.isDir
          · rfl
          · exact absurd hfd hd
        simp [collect, alreadyOf, hd', List.filter_cons, ih hr]
  · rw [runLoop_processed]
    refine collect_eq_nil _ _ (fun f hf => ?_)
    by_cases hd : f.isDir = true
    · simp [procOf, hd, h f hf hd]
    · have hd' : f.isDir = false := by
        cases hx : f.isDir
        · rfl
        · exact absurd hx hd
      simp [procOf, hd']
  · rw [runLoop_errored]
    refine collect_eq_nil _ _ (fun f hf => ?_)
    by_cases hd : f.isDir = true
    · simp [errOf, hd, h f hf hd]
    · have hd' : f.isDir = false := by
        cases hx : f.isDir
        · rfl
        · exact absurd hx hd
      simp [errOf, hd']
  · rw [runLoop_events]
    refine collect_eq_nil _ _ (fun f hf => ?_)
    by_cases hd : f.isDir = true
    · simp [eventsOf, hd, h f hf hd]
    · have hd' : f.isDir = false := by
        cases hx : f.isDir
        · rfl
        · exact absurd hx hd
      simp [eventsOf, hd']

/-- Witness for C2: a concrete batch of one completed observation and one
stray non-directory entry. -/
theorem C2_rerun_is_noop_witness :
    (runLoop ⟨true⟩ [doneFolder,
        { name := "batch.log", isDir := false, hasWork := false,
          body := ⟨[], [], false⟩ }]).already = ["0722700102"] ∧
    (runLoop ⟨true⟩ [doneFolder,
        { name := "batch.log", isDir := false, hasWork := false,
          body := ⟨[], [], false⟩ }]).processed = [] ∧
    (runLoop ⟨true⟩ [doneFolder,
        { name := "batch.log", isDir := false, hasWork := false,
          body := ⟨[], [], false⟩ }]).errored = [] ∧
    (runLoop ⟨true⟩ [doneFolder,
        { name := "batch.log", isDir := false, hasWork := false,
          body := ⟨[], [], false⟩ }]).events = [] := by
  have h := C2_rerun_is_noop ⟨true⟩ [doneFolder,
    { name := "batch.log", isDir := false, hasWork := false,
      body := ⟨[], [], false⟩ }] (by decide)
  exact ⟨h.1, h.2.1, h.2.2.1, h.2.2.2⟩

/-- C3 counterexample: in the concrete environment `failEnv` the `.SAS`
descriptor is found and the reduction invocation fails (`omichain` raises),
yet the astrometric batch (and the rest of the post-processing chain) still
executes — the claim that no post-processing stage runs after a failed
reduction is false. -/
theorem C3_counterexample_postchain_runs_on_failure :
    reductionSucceeded failEnv = false ∧
    Mark.erroredM ∈ (tryBody failEnv).marks ∧
    Ev.omattBatch ∈ (tryBody failEnv).events ∧
    Ev.buildMosaic ∈ (tryBody failEnv).events ∧
    Ev.combineBands ∈ (tryBody failEnv).events ∧
    Ev.sextractor ∈ (tryBody failEnv).events ∧
    Ev.maskApply ∈ (tryBody failEnv).events := by decide

/-- C3 amended: with the initialisation successful and a `.SAS` descriptor
found, only the stray-light correction is gated on the reduction outcome:
on success the observation is marked processed and each readable UVW1 frame
is corrected; on failure the observation is marked errored and no frame is
corrected; the remaining post-processing stages (astrometric matching,
header synchronisation, mosaic building, band combination, segmentation,
masking) run in either case, and the try block completes without raising. -/
theorem C3_postchain_gating (e : ObsEnv)
    (h1 : e.copyOk = true) (h2 : e.unpackOk = true) (h3 : e.updateOk = true)
    (h4 : e.initScriptOk = true) (h5 : e.sasFound = true) :
    (tryBody e).raised = false ∧
    (∀ ev ∈ postEvents, ev ∈ (tryBody e).events) ∧
    (reductionSucceeded e = true →
      Mark.processedM ∈ (tryBody e).marks ∧
      ∀ fr ∈ e.frames, fr.readOk = true → fr.headerFilter = "UVW1" →
        Ev.jupiterInvoke fr ∈ (tryBody e).events) ∧
    (reductionSucceeded e = false →
      Mark.erroredM ∈ (tryBody e).marks ∧
      ∀ fr : Frame, Ev.jupiterInvoke fr ∉ (tryBody e).events) := by
  by_cases hs : e.sasverOk = true
  · by_cases ho : e.omichainOk = true
    · have ht : tryBody e =
          ⟨[Ev.copyInitsas, Ev.unpackTar, Ev.updateInitsas, Ev.runInitsas] ++
            [Ev.sasver, Ev.omichain] ++ jupiterEvents e.frames ++ postEvents,
           [Mark.processedM], false⟩ := by
        simp [tryBody, h1, h2, h3, h4, h5, run_commands_in_directory, hs, ho]
      rw [ht]
      refine ⟨rfl, ?_, ?_, ?_⟩
      · intro ev hev; simp [List.mem_append, hev]
      · intro _
        refine ⟨by simp, fun fr hfr hro hfw => ?_⟩
        have : Ev.jupiterInvoke fr ∈ jupiterEvents e.frames := by
          simp only [jupiterEvents, List.mem_filterMap]
          exact ⟨fr, hfr, by simp [hro, hfw]⟩
        simp [List.mem_append, this]
      · intro hred
        rw [reductionSucceeded, hs, ho] at hred
        exact absurd hred (by simp)
    · have ho' : e.omichainOk = false := by
        cases hoo : e.omichainOk
        · rfl
        · exact absurd hoo ho
      have ht : tryBody e =
          ⟨[Ev.copyInitsas, Ev.unpackTar, Ev.updateInitsas, Ev.runInitsas] ++
            [Ev.sasver, Ev.omichain] ++ postEvents, [Mark.erroredM], false⟩ := by
        simp [tryBody, h1, h2, h3, h4, h5, run_commands_in_directory, hs, ho']
      rw [ht]
      refine ⟨rfl, ?_, ?_, ?_⟩
      · intro ev hev; simp [List.mem_append, hev]
      · intro hred
        rw [reductionSucceeded, hs, ho'] at hred
        exact absurd hred (by simp)
      · intro _
        refine ⟨by simp, fun fr => ?_⟩
        simp [postEvents, List.mem_append]
  · have hs' : e.sasverOk = false := by
      cases hss : e.sasverOk
      · rfl
      · exact absurd hss hs
    have ht : tryBody e =
        ⟨[Ev.copyInitsas, Ev.unpackTar, Ev.updateInitsas, Ev.runInitsas] ++
          [Ev.sasver] ++ postEvents, [Mark.erroredM], false⟩ := by
      simp [tryBody, h1, h2, h3, h4, h5, run_commands_in_directory, hs']
    rw [ht]
    refine ⟨rfl, ?_, ?_, ?_⟩
    · intro ev hev; simp [List.mem_append, hev]
    · intro hred
      rw [reductionSucceeded, hs'] at hred
      exact absurd hred (by simp)
    · intro _
      refine ⟨by simp, fun fr => ?_⟩
      simp [postEvents, List.mem_append]

/-- Witness for C3 amended: the fully successful concrete environment. -/
theorem C3_postchain_gating_witness :
    (tryBody okEnv).raised = false ∧
    (∀ ev ∈ postEvents, ev ∈ (tryBody okEnv).events) ∧
    (reductionSucceeded okEnv = true →
      Mark.processedM ∈ (tryBody okEnv).marks ∧
      ∀ fr ∈ okEnv.frames, fr.readOk = true → fr.headerFilter = "UVW1" →
        Ev.jupiterInvoke fr ∈ (tryBody okEnv).events) ∧
    (reductionSucceeded okEnv = false →
      Mark.erroredM ∈ (tryBody okEnv).marks ∧
      ∀ fr : Frame, Ev.jupiterInvoke fr ∉ (tryBody okEnv).events) :=
  C3_postchain_gating okEnv rfl rfl rfl rfl rfl

/-- C10: the driver invokes the stray-light corrector only on discovered
frames that could be opened and whose primary-header `FILTER` equals exactly
`"UVW1"`; any frame with a different header filter is never passed to the
corrector and no corrected output is written for it. -/
theorem C10_correction_only_uvw1 (e : ObsEnv) (fr : Frame)
    (h : Ev.jupiterInvoke fr ∈ (tryBody e).events) :
    fr ∈ e.frames ∧ fr.readOk = true ∧ fr.headerFilter = "UVW1" := by
  by_cases h1 : e.copyOk = true
  case neg =>
    have h1' : e.copyOk = false := by
      cases hx : e.copyOk
      · rfl
      · exact absurd hx h1
    simp [tryBody, h1'] at h
  by_cases h2 : e.unpackOk = true
  case neg =>
    have h2' : e.unpackOk = false := by
      cases hx : e.unpackOk
      · rfl
      · exact absurd hx h2
    simp [tryBody, h1, h2'] at h
  by_cases h3 : e.updateOk = true
  case neg =>
    have h3' : e.updateOk = false := by
      cases hx : e.updateOk
      · rfl
      · exact absurd hx h3
    simp [tryBody, h1, h2, h3'] at h
  by_cases h4 : e.initScriptOk = true
  case neg =>
    have h4' : e.initScriptOk = false := by
      cases hx : e.initScriptOk
      · rfl
      · exact absurd hx h4
    simp [tryBody, h1, h2, h3, h4'] at h
  by_cases h5 : e.sasFound = true
  case neg =>
    have h5' : e.sasFound = false := by
      cases hx : e.sasFound
      · rfl
      · exact absurd hx h5
    simp [tryBody, h1, h2, h3, h4, h5', postEvents] at h
  by_cases hs : e.sasverOk = true
  case neg =>
    have hs' : e.sasverOk = false := by
      cases hx : e.sasverOk
      · rfl
      · exact absurd hx hs
    simp [tryBody, h1, h2, h3, h4, h5, run_commands_in_directory, hs',
      postEvents] at h
  by_cases ho : e.omichainOk = true
  case neg =>
    have ho' : e.omichainOk = false := by
      cases hx : e.omichainOk
      · rfl
      · exact absurd hx ho
    simp [tryBody, h1, h2, h3, h4, h5, run_commands_in_directory, hs, ho',
      postEvents] at h
  have ht : (tryBody e).events =
      [Ev.copyInitsas, Ev.unpackTar, Ev.updateInitsas, Ev.runInitsas] ++
        [Ev.sasver, Ev.omichain] ++ jupiterEvents e.frames ++ postEvents := by
    simp [tryBody, h1, h2, h3, h4, h5, run_commands_in_directory, hs, ho]
  rw [ht] at h
  rcases List.mem_append.mp h with h' | hpost
  · rcases List.mem_append.mp h' with h'' | hjup
    · exfalso
      rcases List.mem_append.mp h'' with hi | hrd
      · simp at hi
      · simp at hrd
    · exact mem_jupiterEvents e.frames fr hjup
  · exfalso
    simp [postEvents] at hpost

/-- Witness for C10: the corrector call on the concrete UVW1 frame of the
successful environment. -/
theorem C10_correction_only_uvw1_witness :
    uvw1Frame ∈ okEnv.frames ∧ uvw1Frame.readOk = true ∧
      uvw1Frame.headerFilter = "UVW1" :=
  C10_correction_only_uvw1 okEnv uvw1Frame (by decide)

end Driver

namespace Grid

theorem zipWith_getElem? {α β γ : Type} (f : α → β → γ) :
    ∀ (as : List α) (bs : List β) (i : Nat),
      (List.zipWith f as bs)[i]? =
        (as[i]?).bind (fun a => (bs[i]?).map (f a)) := by
  intro as
  induction as with
  | nil => intro bs i; simp
  | cons a as ih =>
    intro bs i
    cases bs with
    | nil => simp
    | cons b bs =>
      cases i with
      | zero => simp [List.zipWith]
      | succ n => simpa [List.zipWith] using ih bs n

theorem cell_map2 {α β γ : Type} (f : α → β → γ) (xss : List (List α))
    (yss : List (List β)) (i j : Nat) :
    cell (map2 f xss yss) i j =
      (cell xss i j).bind (fun a => (cell yss i j).map (f a)) := by
  unfold cell map2
  rw [zipWith_getElem?]
  cases hx : xss[i]? with
  | none => simp
  | some rx =>
    cases hy : yss[i]? with
    | none => simp
    | some ry =>
      simp
      rw [zipWith_getElem?]

end Grid

/-- C4: with a model dictionary holding exactly the key
`("UVW1", (10, 10))`, correcting a 10x10 image under filter `"UVW1"`
succeeds and every output pixel is the input pixel divided by the model
pixel, cast to reduced precision; correcting the same image under filter
`"UVM2"` raises the missing-model error and writes no output file. -/
theorem C4_straylight_exact_model (cast : ℚ → ℚ) (path : String)
    (M img : Jupiter.Image) (_hM : Jupiter.shape M = (10, 10))
    (hI : Jupiter.shape img = (10, 10)) :
    (∃ res : String × Jupiter.Image,
      Jupiter.correct_image cast [(("UVW1", (10, 10)), M)] "UVW1" path img =
        Except.ok res ∧
      res.1 = Jupiter.default_output_path path ∧
      (∀ i j a b, Grid.cell img i j = some a → Grid.cell M i j = some b →
        Grid.cell res.2 i j = some (cast (a / b)))) ∧
    (∃ msg, Jupiter.correct_image cast [(("UVW1", (10, 10)), M)] "UVM2" path img =
      Except.error msg) ∧
    Jupiter.writesOf
      (Jupiter.correct_image cast [(("UVW1", (10, 10)), M)] "UVM2" path img) = [] := by
  have hfind : Jupiter.find_best_model [(("UVW1", (10, 10)), M)] "UVW1"
      (Jupiter.shape img) = some M := by
    rw [hI]
    simp [Jupiter.find_best_model, List.find?]
  have hne : ((("UVW1", ((10 : Nat), (10 : Nat))) == ("UVM2", ((10 : Nat), (10 : Nat))))) = false := by
    decide
  have hfind2 : Jupiter.find_best_model [(("UVW1", (10, 10)), M)] "UVM2"
      (Jupiter.shape img) = none := by
    rw [hI]
    simp [Jupiter.find_best_model, List.find?, hne]
  refine ⟨⟨(Jupiter.default_output_path path,
      Grid.map2 (fun a b => cast (a / b)) img M), ?_, rfl, ?_⟩, ?_, ?_⟩
  · simp [Jupiter.correct_image, hfind]
  · intro i j a b ha hb
    rw [Grid.cell_map2, ha, hb]
    rfl
  · refine ⟨"Nenhum modelo adequado encontrado para a imagem com filtro " ++ "UVM2", ?_⟩
    simp [Jupiter.correct_image, hfind2]
  · simp [Jupiter.writesOf, Jupiter.correct_image, hfind2]

/-- Witness for C4 at the concrete all-2 model and all-6 image. -/
theorem C4_straylight_exact_model_witness :
    (∃ res : String × Jupiter.Image,
      Jupiter.correct_image id [(("UVW1", (10, 10)), Jupiter.modelTen)] "UVW1"
          "P0001OMS001IMAGE_0000.FIT" Jupiter.imageTen = Except.ok res ∧
      res.1 = Jupiter.default_output_path "P0001OMS001IMAGE_0000.FIT" ∧
      (∀ i j a b, Grid.cell Jupiter.imageTen i j = some a →
        Grid.cell Jupiter.modelTen i j = some b →
        Grid.cell res.2 i j = some (id (a / b)))) ∧
    (∃ msg, Jupiter.correct_image id [(("UVW1", (10, 10)), Jupiter.modelTen)] "UVM2"
        "P0001OMS001IMAGE_0000.FIT" Jupiter.imageTen = Except.error msg) ∧
    Jupiter.writesOf
      (Jupiter.correct_image id [(("UVW1", (10, 10)), Jupiter.modelTen)] "UVM2"
        "P0001OMS001IMAGE_0000.FIT" Jupiter.imageTen) = [] :=
  C4_straylight_exact_model id "P0001OMS001IMAGE_0000.FIT"
    Jupiter.modelTen Jupiter.imageTen (by decide) (by decide)

/-- C5 counterexample: on the directory holding exactly
`P1_UVW1_jupiter_filtred_MOSAIC.FIT`, `P1RSIMAGM0.FIT` and
`P2RSIMAGM0.FIT`, the pairing function does not produce exactly one pair:
the hybrid-set key of `P1RSIMAGM0.FIT` is the whole filename (it contains no
`OMS` marker to split on), so no key matches `"P1"` and the output is
empty. -/
theorem C5_counterexample_no_pair :
    ¬ (Combiner.get_matching_pairs Combiner.demoFiles).length = 1 := by decide

/-- C5 amended: on that directory the mosaic-set key is `"P1"` but both
hybrid-set keys are the unsplit filenames, so the key sets are disjoint and
no pair at all is produced; in particular neither `"P1"` nor `"P2"` appears
as an output key. -/
theorem C5_pairing_demo :
    Combiner.keyUnderscore "P1_UVW1_jupiter_filtred_MOSAIC.FIT" = "P1" ∧
    Combiner.keyOMS "P1RSIMAGM0.FIT" = "P1RSIMAGM0.FIT" ∧
    Combiner.keyOMS "P2RSIMAGM0.FIT" = "P2RSIMAGM0.FIT" ∧
    Combiner.get_matching_pairs Combiner.demoFiles = [] := by decide

/-- C7: the band-combiner sum is NaN-safe — at any pixel where exactly one
input is not-a-number, the combined value equals the other input's value,
because each input has its NaN pixels replaced by zero independently before
the elementwise sum. -/
theorem C7_nan_safe_sum (f1 f2 : Combiner.FitsImage) (i j : Nat) (v : ℚ)
    (h : (Grid.cell f1.data i j = some Combiner.Px.nan ∧
          Grid.cell f2.data i j = some (Combiner.Px.val v)) ∨
         (Grid.cell f1.data i j = some (Combiner.Px.val v) ∧
          Grid.cell f2.data i j = some Combiner.Px.nan)) :
    Grid.cell (Combiner.combine_two_images f1 f2).1 i j = some v := by
  have hc : (Combiner.combine_two_images f1 f2).1 =
      Grid.map2 (fun a b => Combiner.nan_to_num a + Combiner.nan_to_num b)
        f1.data f2.data := rfl
  rw [hc, Grid.cell_map2]
  rcases h with ⟨h1, h2⟩ | ⟨h1, h2⟩ <;> rw [h1, h2] <;>
    simp [Combiner.nan_to_num]

/-- Witness for C7 on concrete one-row frames with one NaN on each side. -/
theorem C7_nan_safe_sum_witness :
    Grid.cell (Combiner.combine_two_images
      ⟨[[Combiner.Px.nan, Combiner.Px.val 3]], []⟩
      ⟨[[Combiner.Px.val 5, Combiner.Px.nan]], []⟩).1 0 0 = some 5 :=
  C7_nan_safe_sum ⟨[[Combiner.Px.nan, Combiner.Px.val 3]], []⟩
    ⟨[[Combiner.Px.val 5, Combiner.Px.nan]], []⟩ 0 0 5 (Or.inl ⟨rfl, rfl⟩)

/-- C8: for equal-shape image and segmentation map, the masked output keeps
the original header, equals the original image at every pixel whose
segmentation value is at most zero, and is exactly zero at every pixel whose
segmentation value is positive. -/
theorem C8_mask_policy (img seg out : Mask.QFits)
    (h : Mask.maskPair img seg = some out) :
    out.header = img.header ∧
    ∀ i j a s, Grid.cell img.data i j = some a →
      Grid.cell seg.data i j = some s →
      (s ≤ 0 → Grid.cell out.data i j = some a) ∧
      (0 < s → Grid.cell out.data i j = some 0) := by
  unfold Mask.maskPair at h
  by_cases hsh : Grid.rowDims img.data = Grid.rowDims seg.data
  · rw [if_pos hsh] at h
    cases Option.some.inj h
    refine ⟨rfl, fun i j a s ha hs => ?_⟩
    have hcell : Grid.cell (Mask.mask_pixels img.data seg.data) i j =
        some (if 0 < s then 0 else a) := by
      rw [Mask.mask_pixels, Grid.cell_map2, ha, hs]
      rfl
    constructor
    · intro hle
      rw [hcell, if_neg (not_lt.mpr hle)]
    · intro hpos
      rw [hcell, if_pos hpos]
  · rw [if_neg hsh] at h
    exact absurd h (by simp)

/-- Witness for C8 on the concrete two-by-two image and map. -/
theorem C8_mask_policy_witness :
    Mask.demoOut.header = Mask.demoImg.header ∧
    Grid.cell Mask.demoOut.data 0 1 = some 0 ∧
    Grid.cell Mask.demoOut.data 1 0 = some 4 := by
  have h := C8_mask_policy Mask.demoImg Mask.demoSeg Mask.demoOut (by decide)
  refine ⟨h.1, ?_, ?_⟩
  · exact (h.2 0 1 9 2 (by decide) (by decide)).2 (by norm_num)
  · exact (h.2 1 0 4 (-1) (by decide) (by decide)).1 (by norm_num)

namespace Mosaic

theorem mem_stackedInvs (outcomes : Nat → Bool) :
    ∀ (groups : List (String × List String)) (k : Nat) (ev : MEv),
      ev ∈ stackedInvs groups outcomes k →
      ∃ i o, ev = MEv.ommosaicStacked i o := by
  intro groups
  induction groups with
  | nil => intro k ev h; simp [stackedInvs] at h
  | cons g rest ih =>
    intro k ev h
    obtain ⟨filt, imgs⟩ := g
    simp only [stackedInvs] at h
    by_cases hl : imgs.length < 1
    · rw [if_pos hl] at h
      exact ih k ev h
    · rw [if_neg hl] at h
      by_cases ho : outcomes k = true
      · rw [if_pos ho] at h
        rcases List.mem_cons.mp h with rfl | h'
        · exact ⟨imgs, _, rfl⟩
        · exact ih (k + 1) ev h'
      · rw [if_neg ho] at h
        rcases List.mem_cons.mp h with rfl | h'
        · exact ⟨imgs, _, rfl⟩
        · simp at h'

theorem cwdAfter_cons (c : String) (e : MEv) (l : List MEv) :
    cwdAfter c (e :: l) = cwdAfter (stepCwd c e) l := rfl

theorem cwdAfter_append (c : String) (l1 l2 : List MEv) :
    cwdAfter c (l1 ++ l2) = cwdAfter (cwdAfter c l1) l2 := by
  simp [cwdAfter, List.foldl_append]

theorem stepCwd_nonchdir (c : String) (e : MEv) (h : isChdir e = false) :
    stepCwd c e = c := by
  cases e <;> simp_all [isChdir, stepCwd]

/-- Working directory restoration along the hybrid-mode loop: every filter
segment restores the prior working directory, so the loop preserves it. -/
theorem cwdAfter_hybridLoop (dirp cwd0 : String) (files : List MFile) :
    ∀ filters : List String,
      cwdAfter cwd0 (hybridLoop dirp cwd0 files filters) = cwd0 := by
  intro filters
  induction filters with
  | nil => rfl
  | cons filt rest ih =>
    simp only [hybridLoop]
    by_cases hemp : (find_images_for_hybrid_mosaic files filt).isEmpty = true
    · rw [if_pos hemp, cwdAfter_cons]
      exact ih
    · rw [if_neg hemp, cwdAfter_cons, cwdAfter_cons, cwdAfter_cons, cwdAfter_cons]
      exact ih

/-- In a split of a chdir-free list followed by one final restoring chdir,
any mosaic invocation has the chdir-free part as a proper prefix, along
which the working directory does not move. -/
theorem cwd_of_split_nochdir (d c : String) :
    ∀ (s pre : List MEv) (ev : MEv) (post : List MEv),
      pre ++ ev :: post = s ++ [MEv.chdir c] →
      isMosaicInv ev = true →
      (∀ e ∈ s, isChdir e = false) →
      cwdAfter d pre = d := by
  intro s
  induction s with
  | nil =>
    intro pre ev post heq hinv _
    cases pre with
    | nil =>
      simp only [List.nil_append] at heq
      have hev : ev = MEv.chdir c := (List.cons.injEq _ _ _ _ ▸ heq).1
      rw [hev] at hinv
      simp [isMosaicInv] at hinv
    | cons x pre' =>
      simp only [List.cons_append, List.nil_append] at heq
      have htail := (List.cons.injEq _ _ _ _ ▸ heq).2
      exact absurd htail (by simp)
  | cons a s' ih =>
    intro pre ev post heq hinv hnc
    cases pre with
    | nil => rfl
    | cons x pre' =>
      simp only [List.cons_append] at heq
      have hx : x = a := (List.cons.injEq _ _ _ _ ▸ heq).1
      have htail : pre' ++ ev :: post = s' ++ [MEv.chdir c] :=
        (List.cons.injEq _ _ _ _ ▸ heq).2
      have hxc : isChdir x = false := hx ▸ hnc a (by simp)
      rw [cwdAfter_cons, stepCwd_nonchdir d x hxc]
      exact ih pre' ev post htail hinv (fun e he => hnc e (by simp [he]))

/-- Position of hybrid-mode mosaic invocations: whenever the hybrid loop's
trace splits around an external mosaic invocation, the working directory at
that point is the observation's work directory. -/
theorem hybrid_inv_position (dirp cwd0 : String) (files : List MFile) :
    ∀ (filters : List String) (pre : List MEv) (ev : MEv) (post : List MEv),
      hybridLoop dirp cwd0 files filters = pre ++ ev :: post →
      isMosaicInv ev = true →
      cwdAfter cwd0 pre = dirp := by
  intro filters
  induction filters with
  | nil =>
    intro pre ev post heq _
    exact absurd heq.symm (by simp [hybridLoop])
  | cons filt rest ih =>
    intro pre ev post heq hinv
    simp only [hybridLoop] at heq
    by_cases hemp : (find_images_for_hybrid_mosaic files filt).isEmpty = true
    · rw [if_pos hemp] at heq
      cases pre with
      | nil =>
        simp only [List.nil_append] at heq
        have hev : MEv.hybridSearch filt = ev := (List.cons.injEq _ _ _ _ ▸ heq).1
        rw [← hev] at hinv
        simp [isMosaicInv] at hinv
      | cons x pre' =>
        simp only [List.cons_append] at heq
        have hx : MEv.hybridSearch filt = x := (List.cons.injEq _ _ _ _ ▸ heq).1
        have htail : hybridLoop dirp cwd0 files rest = pre' ++ ev :: post :=
          (List.cons.injEq _ _ _ _ ▸ heq).2
        rw [cwdAfter_cons, ← hx]
        exact ih pre' ev post htail hinv
    · rw [if_neg hemp] at heq
      cases pre with
      | nil =>
        simp only [List.nil_append] at heq
        have hev : MEv.hybridSearch filt = ev := (List.cons.injEq _ _ _ _ ▸ heq).1
        rw [← hev] at hinv
        simp [isMosaicInv] at hinv
      | cons x1 pre1 =>
        simp only [List.cons_append] at heq
        have hx1 : MEv.hybridSearch filt = x1 := (List.cons.injEq _ _ _ _ ▸ heq).1
        have ht1 := (List.cons.injEq _ _ _ _ ▸ heq).2
        cases pre1 with
        | nil =>
          simp only [List.nil_append] at ht1
          have hev : MEv.chdir dirp = ev := (List.cons.injEq _ _ _ _ ▸ ht1).1
          rw [← hev] at hinv
          simp [isMosaicInv] at hinv
        | cons x2 pre2 =>
          simp only [List.cons_append] at ht1
          have hx2 : MEv.chdir dirp = x2 := (List.cons.injEq _ _ _ _ ▸ ht1).1
          have ht2 := (List.cons.injEq _ _ _ _ ▸ ht1).2
          cases pre2 with
          | nil =>
            rw [cwdAfter_cons, cwdAfter_cons, ← hx1, ← hx2]
            rfl
          | cons x3 pre3 =>
            simp only [List.cons_append] at ht2
            have hx3 := (List.cons.injEq _ _ _ _ ▸ ht2).1
            have ht3 := (List.cons.injEq _ _ _ _ ▸ ht2).2
            cases pre3 with
            | nil =>
              simp only [List.nil_append] at ht3
              have hev : MEv.chdir cwd0 = ev := (List.cons.injEq _ _ _ _ ▸ ht3).1
              rw [← hev] at hinv
              simp [isMosaicInv] at hinv
            | cons x4 pre4 =>
              simp only [List.cons_append] at ht3
              have hx4 : MEv.chdir cwd0 = x4 := (List.cons.injEq _ _ _ _ ▸ ht3).1
              have ht4 : hybridLoop dirp cwd0 files rest = pre4 ++ ev :: post :=
                (List.cons.injEq _ _ _ _ ▸ ht3).2
              rw [cwdAfter_cons, cwdAfter_cons, cwdAfter_cons, cwdAfter_cons,
                ← hx1, ← hx2, ← hx3, ← hx4]
              exact ih pre4 ev post ht4 hinv

/-- C6: mode detection is exclusive — if any file in the directory matches
the stacked-frame (corrected FSIMAG) pattern, the hybrid-mosaic code path
(the per-filter priority search and the hybrid `ommosaic` invocation) never
executes, regardless of what else the directory contains. -/
theorem C6_mode_detection_exclusive (dirp cwd0 : String) (files : List MFile)
    (outcomes : Nat → Bool) (f : MFile) (hf : f ∈ files)
    (hmatch : PipeStr.globMatchStr fsimagPat f.name = true) :
    ∀ ev ∈ create_new_mosaic dirp cwd0 files outcomes,
      isHybridPath ev = false := by
  intro ev hev
  have hmem : f ∈ files.filter (fun g => PipeStr.globMatchStr fsimagPat g.name) :=
    List.mem_filter.mpr ⟨hf, hmatch⟩
  have hne : (files.filter (fun g => PipeStr.globMatchStr fsimagPat g.name)).isEmpty = false := by
    cases hl : (files.filter (fun g => PipeStr.globMatchStr fsimagPat g.name)).isEmpty
    · rfl
    · rw [List.isEmpty_iff] at hl
      rw [hl] at hmem
      simp at hmem
  simp only [create_new_mosaic, hne] at hev
  rw [if_neg (by simp)] at hev
  by_cases hg : (images_by_filter
      (files.filter (fun g => PipeStr.globMatchStr fsimagPat g.name))).isEmpty = true
  · rw [if_pos hg] at hev
    simp at hev
  · rw [if_neg hg] at hev
    rcases List.mem_cons.mp hev with rfl | h'
    · rfl
    · rcases List.mem_append.mp h' with h'' | h''
      · obtain ⟨i, o, rfl⟩ := mem_stackedInvs outcomes _ 0 ev h''
        rfl
      · have : ev = MEv.chdir cwd0 := by simpa using h''
        rw [this]
        rfl

/-- Witness for C6: a directory holding one corrected FSIMAG file and one
hybrid-pattern candidate; the mosaic invocation found in the trace is the
stacked one, not a hybrid-path event. -/
theorem C6_mode_detection_exclusive_witness :
    isHybridPath (MEv.ommosaicStacked
      ["P0001OMS001FIMAG_0000_jpiter_filtred_rotated_WCS.FIT"]
      "P0001_UVW1_jupiter_filtred_MOSAIC.FIT") = false :=
  C6_mode_detection_exclusive "/obs/work" "/home"
    [{ name := "P0001OMS001FIMAG_0000_jpiter_filtred_rotated_WCS.FIT",
       headerFilters := ["UVW1"], readOk := true },
     { name := "P0001OMS002IMAGE_1000_jpiter_filtred_rotated_WCS.FIT",
       headerFilters := ["UVW1"], readOk := true }] (fun _ => true)
    { name := "P0001OMS001FIMAG_0000_jpiter_filtred_rotated_WCS.FIT",
      headerFilters := ["UVW1"], readOk := true }
    (by decide) (by decide)
    (MEv.ommosaicStacked
      ["P0001OMS001FIMAG_0000_jpiter_filtred_rotated_WCS.FIT"]
      "P0001_UVW1_jupiter_filtred_MOSAIC.FIT")
    (by decide)

/-- C9: in both mosaic-builder modes every external mosaic invocation takes
place with the working directory equal to the observation's work directory,
and the working directory after the builder finishes equals the working
directory before it was entered, on success and failure paths alike. -/
theorem C9_cwd_saved_restored (dirp cwd0 : String) (files : List MFile)
    (outcomes : Nat → Bool) :
    cwdAfter cwd0 (create_new_mosaic dirp cwd0 files outcomes) = cwd0 ∧
    ∀ pre ev post,
      create_new_mosaic dirp cwd0 files outcomes = pre ++ ev :: post →
      isMosaicInv ev = true →
      cwdAfter cwd0 pre = dirp := by
  constructor
  · unfold create_new_mosaic
    by_cases h1 : (files.filter (fun g => PipeStr.globMatchStr fsimagPat g.name)).isEmpty = true
    · rw [if_pos h1]
      exact cwdAfter_hybridLoop dirp cwd0 files hybridFilters
    · rw [if_neg h1]
      by_cases h2 : (images_by_filter
          (files.filter (fun g => PipeStr.globMatchStr fsimagPat g.name))).isEmpty = true
      · rw [if_pos h2]
        rfl
      · rw [if_neg h2, cwdAfter_append]
        rfl
  · intro pre ev post heq hinv
    unfold create_new_mosaic at heq
    by_cases h1 : (files.filter (fun g => PipeStr.globMatchStr fsimagPat g.name)).isEmpty = true
    · rw [if_pos h1] at heq
      exact hybrid_inv_position dirp cwd0 files hybridFilters pre ev post heq hinv
    · rw [if_neg h1] at heq
      by_cases h2 : (images_by_filter
          (files.filter (fun g => PipeStr.globMatchStr fsimagPat g.name))).isEmpty = true
      · rw [if_pos h2] at heq
        exact absurd heq (by simp)
      · rw [if_neg h2] at heq
        rw [List.cons_append] at heq
        have hs := heq.symm
        cases pre with
        | nil =>
          simp only [List.nil_append] at hs
          have hev : ev = MEv.chdir dirp := (List.cons.injEq _ _ _ _ ▸ hs).1
          rw [hev] at hinv
          simp [isMosaicInv] at hinv
        | cons x pre' =>
          simp only [List.cons_append] at hs
          have hx : x = MEv.chdir dirp := (List.cons.injEq _ _ _ _ ▸ hs).1
          have htail : pre' ++ ev :: post =
              stackedInvs (images_by_filter
                (files.filter (fun g => PipeStr.globMatchStr fsimagPat g.name)))
                outcomes 0 ++ [MEv.chdir cwd0] :=
            (List.cons.injEq _ _ _ _ ▸ hs).2
          rw [hx, cwdAfter_cons]
          exact cwd_of_split_nochdir dirp cwd0 _ pre' ev post htail hinv
            (fun e he => by
              obtain ⟨i, o, rfl⟩ := mem_stackedInvs outcomes _ 0 e he
              rfl)

/-- Witness for C9: the concrete stacked-mode directory of the C6 witness,
split around its single mosaic invocation. -/
theorem C9_cwd_saved_restored_witness :
    cwdAfter "/home" (create_new_mosaic "/obs/work" "/home"
      [{ name := "P0001OMS001FIMAG_0000_jpiter_filtred_rotated_WCS.FIT",
         headerFilters := ["UVW1"], readOk := true }] (fun _ => true)) = "/home" ∧
    cwdAfter "/home" [MEv.chdir "/obs/work"] = "/obs/work" := by
  have h := C9_cwd_saved_restored "/obs/work" "/home"
    [{ name := "P0001OMS001FIMAG_0000_jpiter_filtred_rotated_WCS.FIT",
       headerFilters := ["UVW1"], readOk := true }] (fun _ => true)
  refine ⟨h.1, ?_⟩
  exact h.2 [MEv.chdir "/obs/work"]
    (MEv.ommosaicStacked ["P0001OMS001FIMAG_0000_jpiter_filtred_rotated_WCS.FIT"]
      "P0001_UVW1_jupiter_filtred_MOSAIC.FIT")
    [MEv.chdir "/home"] (by decide) (by decide)

end Mosaic

